import Mathlib

/-!
# Frequency Analytics: the secure network front-end of `main.go`

A shallow embedding of the parts of `main.go` that make up the network
front-end: the autocert host policy, the port-80 redirect handler and its
router, the keepalive listener, the TLS configuration, the flag handling at
startup and the SIGINT handler.

Conventions.
* A Go `string` is a sequence of bytes: `GoString` is a list of bytes, and
  `go "text"` is the UTF-8 encoding of a literal.
* A Go `error` is modelled by an `Option`: `none` is `nil`.
* Functions of the Go standard library (`strings`, `net/url`, `net/http`)
  and of the two routing libraries (`httprouter`, `autocert`) are embedded
  from their Go sources and say so in their doc comments.
-/

namespace Frequency

/-! ## Strings -/

/-- A Go `byte`. -/
abbrev Byte := Fin 256

/-- A Go `string`: an immutable sequence of bytes. -/
abbrev GoString := List Byte

/-- The byte of an ASCII character literal such as `'a'`. -/
def byte (c : Char) : Byte := Fin.ofNat c.toNat

/-- The UTF-8 encoding of one character. -/
def utf8 (c : Char) : List Byte :=
  let n := c.toNat
  if n < 0x80 then
    [Fin.ofNat n]
  else if n < 0x800 then
    [Fin.ofNat (0xC0 + n / 0x40), Fin.ofNat (0x80 + n % 0x40)]
  else if n < 0x10000 then
    [Fin.ofNat (0xE0 + n / 0x1000), Fin.ofNat (0x80 + n / 0x40 % 0x40),
      Fin.ofNat (0x80 + n % 0x40)]
  else
    [Fin.ofNat (0xF0 + n / 0x40000), Fin.ofNat (0x80 + n / 0x1000 % 0x40),
      Fin.ofNat (0x80 + n / 0x40 % 0x40), Fin.ofNat (0x80 + n % 0x40)]

/-- The Go string written as the literal `s`. -/
def go (s : String) : GoString := s.data.flatMap utf8

/-- Go `strings.HasPrefix(s, pre)`. -/
def HasPrefix (s pre : GoString) : Bool :=
  pre.isPrefixOf s

/-- Go `strings.TrimPrefix(s, pre)`: `s` without the leading `pre` when it
has one, `s` itself otherwise. -/
def TrimPrefix (s pre : GoString) : GoString :=
  if HasPrefix s pre then s.drop pre.length else s

/-! ## Configuration -/

/-- Modelled from the spec: the record returned by `config.FindInfo()`; the
`Config` type is declared outside `main.go`.  `main.go` reads the fields
`Domain` (the optional secondary domain), `HashKey` and `BlockKey`. -/
structure Info where
  Domain : GoString
  HashKey : GoString
  BlockKey : GoString
  deriving DecidableEq, Repr

/-- Modelled from the spec: the value behind the global `config *Config`; the
`Config` type is declared outside `main.go`.  It stands for the persisted
configuration as it is at the moment it is read. -/
structure Config where
  info : Info
  deriving DecidableEq, Repr

/-- The call `config.FindInfo()`. -/
def Config.FindInfo (c : Config) : Info := c.info

/-! ## Host policy (`certmanager.HostPolicy`, main.go 244-253) -/

/-- The error built by
`fmt.Errorf("autocert: host %q not permitted by HostPolicy", host)`; it
carries the (already trimmed) host that is formatted into the message. -/
inductive PolicyError where
  | hostNotPermitted (host : GoString)
  deriving DecidableEq, Repr

/-- The `HostPolicy` closure of the autocert manager.  The context argument
is ignored by the closure.  `httpHost` is the global set from the
`--http-host` flag, `config` is the value of the global `config` when the
closure runs. -/
def HostPolicy (httpHost : GoString) (config : Config) (host : GoString) :
    Option PolicyError :=
  let host := TrimPrefix host (go "www.")
  if host = httpHost then
    none
  else if host = config.FindInfo.Domain then
    none
  else
    some (PolicyError.hostNotPermitted host)

/-- ASCII lower-casing of one byte: `A`-`Z` become `a`-`z`. -/
def asciiLower (c : Byte) : Byte :=
  if byte 'A' ≤ c ∧ c ≤ byte 'Z' then Fin.ofNat (c.val + 32) else c

/-- Two hostnames differ at most in the letter case of their ASCII
characters. -/
def EqualUpToAsciiCase (a b : GoString) : Prop :=
  a.map asciiLower = b.map asciiLower

instance (a b : GoString) : Decidable (EqualUpToAsciiCase a b) := by
  unfold EqualUpToAsciiCase; infer_instance

/-- The globals the `HostPolicy` closure depends on, for one call of the
closure: `httpHost`, set once by `cli.Parse`; the configuration as
`NewConfig` loaded it at startup; and the configuration behind the global
`config` at the moment of the call. -/
structure Globals where
  httpHost : GoString
  startupConfig : Config
  config : Config
  deriving DecidableEq, Repr

/-- The verdict of the `HostPolicy` closure when it is called with the
globals in state `g`: the closure evaluates `config.FindInfo().Domain` at
every call. -/
def Globals.verdict (g : Globals) (host : GoString) : Option PolicyError :=
  HostPolicy g.httpHost g.config host

/-! ## `net/url`: escaping -/

/-- The `encoding` modes of `net/url`. -/
inductive encoding where
  | encodePath
  | encodePathSegment
  | encodeHost
  | encodeZone
  | encodeUserPassword
  | encodeQueryComponent
  | encodeFragment
  deriving DecidableEq, Repr, Fintype

/-- Go `net/url.ishex`. -/
def ishex (c : Byte) : Bool :=
  (byte '0' ≤ c ∧ c ≤ byte '9') ∨ (byte 'a' ≤ c ∧ c ≤ byte 'f') ∨
    (byte 'A' ≤ c ∧ c ≤ byte 'F')

/-- Go `net/url.unhex`. -/
def unhex (c : Byte) : Nat :=
  if byte '0' ≤ c ∧ c ≤ byte '9' then c.val - 48
  else if byte 'a' ≤ c ∧ c ≤ byte 'f' then c.val - 97 + 10
  else if byte 'A' ≤ c ∧ c ≤ byte 'F' then c.val - 65 + 10
  else 0

/-- Go `net/url.shouldEscape`: whether the byte `c` is percent-escaped when
it appears in the part of a URL given by `mode`. -/
def shouldEscape (c : Byte) (mode : encoding) : Bool :=
  if (byte 'a' ≤ c ∧ c ≤ byte 'z') ∨ (byte 'A' ≤ c ∧ c ≤ byte 'Z') ∨
      (byte '0' ≤ c ∧ c ≤ byte '9') then
    false
  else if (mode = encoding.encodeHost ∨ mode = encoding.encodeZone) ∧
      c ∈ [byte '!', byte '$', byte '&', 0x27, byte '(', byte ')', byte '*',
        byte '+', byte ',', byte ';', byte '=', byte ':', byte '[', byte ']',
        byte '<', byte '>', 0x22] then
    false
  else if c ∈ [byte '-', byte '_', byte '.', byte '~'] then
    false
  else if c ∈ [byte '$', byte '&', byte '+', byte ',', byte '/', byte ':',
      byte ';', byte '=', byte '?', byte '@'] then
    match mode with
    | encoding.encodePath => c = byte '?'
    | encoding.encodePathSegment =>
      c = byte '/' ∨ c = byte ';' ∨ c = byte ',' ∨ c = byte '?'
    | encoding.encodeUserPassword =>
      c = byte '@' ∨ c = byte '/' ∨ c = byte '?' ∨ c = byte ':'
    | encoding.encodeQueryComponent => true
    | encoding.encodeFragment => false
    | encoding.encodeHost => true
    | encoding.encodeZone => true
  else if mode = encoding.encodeFragment ∧
      c ∈ [byte '!', byte '(', byte ')', byte '*'] then
    false
  else
    true

/-- The table `upperhex` of `net/url`. -/
def upperhex : GoString := go "0123456789ABCDEF"

/-- Go `net/url.escape`: every byte that `shouldEscape` selects becomes
`%XX` in upper-case hexadecimal; in a query component a space becomes `+`. -/
def escape (s : GoString) (mode : encoding) : GoString :=
  s.flatMap fun c =>
    if c = byte ' ' ∧ mode = encoding.encodeQueryComponent then
      [byte '+']
    else if shouldEscape c mode then
      [byte '%', upperhex.getD (c.val / 16) 0, upperhex.getD (c.val % 16) 0]
    else
      [c]

/-- Go `net/url.unescape`; `none` stands for its `EscapeError` and
`InvalidHostError` results. -/
def unescape : GoString → encoding → Option GoString
  | [], _ => some []
  | c :: rest, mode =>
    if c = byte '%' then
      match rest with
      | h1 :: h2 :: rest2 =>
        if ishex h1 ∧ ishex h2 then
          if mode = encoding.encodeHost ∧ unhex h1 < 8 ∧
              [c, h1, h2] ≠ go "%25" then
            none
          else if mode = encoding.encodeZone ∧ [c, h1, h2] ≠ go "%25" ∧
              unhex h1 * 16 + unhex h2 ≠ 32 ∧
              shouldEscape (Fin.ofNat (unhex h1 * 16 + unhex h2))
                encoding.encodeHost then
            none
          else
            (unescape rest2 mode).map
              (fun t => Fin.ofNat (unhex h1 * 16 + unhex h2) :: t)
        else
          none
      | _ => none
    else if c = byte '+' then
      (unescape rest mode).map
        (fun t =>
          (if mode = encoding.encodeQueryComponent then byte ' ' else byte '+')
            :: t)
    else if (mode = encoding.encodeHost ∨ mode = encoding.encodeZone) ∧
        c.val < 0x80 ∧ shouldEscape c encoding.encodeHost then
      none
    else
      (unescape rest mode).map (fun t => c :: t)

/-- Go `net/url.validEncoded`: whether `s` is a valid encoded path or
fragment, according to `mode`. -/
def validEncoded (s : GoString) (mode : encoding) : Bool :=
  s.all fun c =>
    if c ∈ [byte '!', byte '$', byte '&', 0x27, byte '(', byte ')', byte '*',
        byte '+', byte ',', byte ';', byte '=', byte ':', byte '@'] then
      true
    else if c ∈ [byte '[', byte ']'] then
      true
    else if c = byte '%' then
      true
    else
      !shouldEscape c mode

/-! ## `net/url`: the `URL` type -/

/-- Go `net/url.Userinfo`. -/
structure Userinfo where
  username : GoString
  password : GoString
  passwordSet : Bool
  deriving DecidableEq, Repr

/-- Go `(*Userinfo).String` on a non-nil receiver. -/
def Userinfo.String (u : Userinfo) : GoString :=
  escape u.username encoding.encodeUserPassword ++
    (if u.passwordSet then
      go ":" ++ escape u.password encoding.encodeUserPassword
    else [])

/-- Go `net/url.URL`; `User` is `none` for a nil `*Userinfo`. -/
structure URL where
  Scheme : GoString
  Opaque : GoString
  User : Option Userinfo
  Host : GoString
  Path : GoString
  RawPath : GoString
  OmitHost : Bool
  ForceQuery : Bool
  RawQuery : GoString
  Fragment : GoString
  RawFragment : GoString
  deriving DecidableEq, Repr

/-- Go `(*URL).setPath`: sets `Path` to the decoded form of `p` and
`RawPath` to `p` itself when `p` is not the default encoding of that path;
`none` is the error of `unescape`. -/
def URL.setPath (u : URL) (p : GoString) : Option URL :=
  match unescape p encoding.encodePath with
  | none => none
  | some path =>
    if p = escape path encoding.encodePath then
      some { u with Path := path, RawPath := [] }
    else
      some { u with Path := path, RawPath := p }

/-- Go `(*URL).EscapedPath`. -/
def URL.EscapedPath (u : URL) : GoString :=
  if u.RawPath ≠ [] ∧ validEncoded u.RawPath encoding.encodePath ∧
      unescape u.RawPath encoding.encodePath = some u.Path then
    u.RawPath
  else if u.Path = go "*" then
    go "*"
  else
    escape u.Path encoding.encodePath

/-- Go `(*URL).EscapedFragment`. -/
def URL.EscapedFragment (u : URL) : GoString :=
  if u.RawFragment ≠ [] ∧ validEncoded u.RawFragment encoding.encodeFragment ∧
      unescape u.RawFragment encoding.encodeFragment = some u.Fragment then
    u.RawFragment
  else
    escape u.Fragment encoding.encodeFragment

/-- The part of `(*URL).String` that writes scheme, authority and path into
the buffer. -/
def URL.stringHead (u : URL) : GoString :=
  let buf : GoString := if u.Scheme ≠ [] then u.Scheme ++ go ":" else []
  if u.Opaque ≠ [] then
    buf ++ u.Opaque
  else
    let buf :=
      if u.Scheme ≠ [] ∨ u.Host ≠ [] ∨ u.User.isSome then
        if u.OmitHost ∧ u.Host = [] ∧ u.User.isNone then
          buf
        else
          let buf :=
            if u.Host ≠ [] ∨ u.Path ≠ [] ∨ u.User.isSome then buf ++ go "//"
            else buf
          let buf :=
            match u.User with
            | some ui => buf ++ ui.String ++ go "@"
            | none => buf
          if u.Host ≠ [] then buf ++ escape u.Host encoding.encodeHost
          else buf
      else
        buf
    let path := u.EscapedPath
    let buf :=
      if path ≠ [] ∧ path.head? ≠ some (byte '/') ∧ u.Host ≠ [] then
        buf ++ go "/"
      else buf
    let buf :=
      if buf = [] ∧ byte ':' ∈ path.takeWhile (fun c => c ≠ byte '/') then
        buf ++ go "./"
      else buf
    buf ++ path

/-- Go `(*URL).String`: the URL reassembled into a string. -/
def URL.String (u : URL) : GoString :=
  u.stringHead ++
    (if u.ForceQuery ∨ u.RawQuery ≠ [] then go "?" ++ u.RawQuery else []) ++
    (if u.Fragment ≠ [] then go "#" ++ u.EscapedFragment else [])

/-- Go `net/url.getScheme`, with the index `i` of the loop: the scheme and
the rest of `rawURL`; `none` is the error `missing protocol scheme`. -/
def getSchemeFrom (rawURL : GoString) :
    Nat → GoString → Option (GoString × GoString)
  | _, [] => some ([], rawURL)
  | i, c :: rest =>
    if (byte 'a' ≤ c ∧ c ≤ byte 'z') ∨ (byte 'A' ≤ c ∧ c ≤ byte 'Z') then
      getSchemeFrom rawURL (i + 1) rest
    else if (byte '0' ≤ c ∧ c ≤ byte '9') ∨ c = byte '+' ∨ c = byte '-' ∨
        c = byte '.' then
      if i = 0 then some ([], rawURL) else getSchemeFrom rawURL (i + 1) rest
    else if c = byte ':' then
      if i = 0 then none else some (rawURL.take i, rest)
    else
      some ([], rawURL)

/-- Go `net/url.getScheme`. -/
def getScheme (rawURL : GoString) : Option (GoString × GoString) :=
  getSchemeFrom rawURL 0 rawURL

/-! ## `net/http`: requests, responses, `Redirect` -/

/-- The fields of a Go `http.Request` that the front-end reads: the method,
the parsed request URL and the host the request was addressed to. -/
structure Request where
  Method : GoString
  URL : URL
  Host : GoString
  deriving DecidableEq, Repr

/-- What a handler wrote to its `http.ResponseWriter`: the status code and
the headers it set.  The response body is not part of the model. -/
structure Response where
  Code : Nat
  Header : List (String × GoString)
  deriving DecidableEq, Repr

/-- Go `Header.Get`: the value stored under `key`, `none` when absent. -/
def Response.Get (w : Response) (key : String) : Option GoString :=
  (w.Header.find? (fun kv => kv.1 = key)).map Prod.snd

/-- Go `http.StatusOK`. -/
def StatusOK : Nat := 200

/-- Go `http.StatusFound`. -/
def StatusFound : Nat := 302

/-- Go `http.StatusMethodNotAllowed`. -/
def StatusMethodNotAllowed : Nat := 405

/-- Go `net/http.hexEscapeNonASCII`: every byte from `0x80` up becomes `%xx`
in lower-case hexadecimal (`strconv.AppendInt(b, int64(s[i]), 16)`). -/
def hexEscapeNonASCII (s : GoString) : GoString :=
  s.flatMap fun c =>
    if 0x80 ≤ c.val then
      [byte '%', (go "0123456789abcdef").getD (c.val / 16) 0,
        (go "0123456789abcdef").getD (c.val % 16) 0]
    else
      [c]

/-- Go `http.Redirect(w, r, url, code)` on a fresh `ResponseWriter`, for a
`url` that carries a scheme.  `Redirect` first parses `url`; when the parse
succeeds with an empty scheme and host it rewrites the relative target
against the request path.  A `url` in which `getScheme` (run, as `url.Parse`
does, on the part before `#`) finds a scheme either parses with that scheme
or fails to parse, and is left as it is in both cases.  The result is `none`
for a `url` without a scheme: the rewriting of relative targets is not
modelled. -/
def Redirect (r : Request) (url : GoString) (code : Nat) : Option Response :=
  let respond : Response :=
    { Code := code
      Header :=
        [("Location", hexEscapeNonASCII url)] ++
          (if r.Method = go "GET" ∨ r.Method = go "HEAD" then
            [("Content-Type", go "text/html; charset=utf-8")]
          else []) }
  match getScheme (url.takeWhile (fun c => c ≠ byte '#')) with
  | none => some respond
  | some (scheme, _) => if scheme = [] then none else some respond

/-! ## `net/http`: `Error` -/

/-- Go `http.StatusNotFound`. -/
def StatusNotFound : Nat := 404

/-- Go `http.StatusMovedPermanently`. -/
def StatusMovedPermanently : Nat := 301

/-- Go `http.StatusTemporaryRedirect`. -/
def StatusTemporaryRedirect : Nat := 307

/-- Go `http.Error(w, text, code)` on a writer that holds the headers
`header` so far: it sets `Content-Type` and `X-Content-Type-Options` and
writes the status code (the text goes to the body). -/
def Error (header : List (String × GoString)) (code : Nat) : Response :=
  { Code := code
    Header :=
      header ++
        [("Content-Type", go "text/plain; charset=utf-8"),
          ("X-Content-Type-Options", go "nosniff")] }

/-! ## `httprouter` (v1.3.0): the routing tree -/

/-- Go `httprouter.Params`: the key-value pairs of the wildcards. -/
abbrev Params := List (GoString × GoString)

/-- Go `httprouter.Handle`, as a function from the request and the
parameters to what it writes to a fresh `ResponseWriter`. -/
abbrev Handle := Request → Params → Option Response

/-- Go `httprouter.nodeType`. -/
inductive nodeType where
  | static
  | root
  | param
  | catchAll
  deriving DecidableEq, Repr

/-- Go `httprouter.node`: a node of the radix tree of one method; `handle`
is `none` for a nil handle. -/
inductive node where
  | mk (path : GoString) (wildChild : Bool) (nType : nodeType)
      (maxParams : Nat) (priority : Nat) (indices : GoString)
      (children : List node) (handle : Option Handle)

/-- The field `path`. -/
def node.path : node → GoString
  | node.mk p _ _ _ _ _ _ _ => p

/-- The field `nType`. -/
def node.nType : node → nodeType
  | node.mk _ _ t _ _ _ _ _ => t

/-- The field `children`. -/
def node.children : node → List node
  | node.mk _ _ _ _ _ _ c _ => c

/-- The field `handle`. -/
def node.handle : node → Option Handle
  | node.mk _ _ _ _ _ _ _ h => h

/-- The assignment `n.nType = t`. -/
def node.setType : node → nodeType → node
  | node.mk p w _ mp pr ind ch h, t => node.mk p w t mp pr ind ch h

/-- The byte starts a wildcard: `:` or `*`. -/
def isWildcard (c : Byte) : Bool :=
  c = byte ':' ∨ c = byte '*'

/-- Go `httprouter.countParams`. -/
def countParams (path : GoString) : Nat :=
  min (path.filter isWildcard).length 255

/-- Go `(*node).insertChild(numParams, path, fullPath, handle)`: the node
after the insertion, `none` when the Go function panics.  The loop over the
wildcards of `path` is a recursion on `numParams`; after a `:name` wildcard
the insertion goes on in a fresh child with the rest of the path. -/
def insertChild : Nat → GoString → Handle → node → Option node
  | 0, path, handle, node.mk _ w t mp pr ind ch _ =>
    some (node.mk path w t mp pr ind ch (some handle))
  | numParams + 1, path, handle, node.mk npath w t mp pr ind ch h =>
    match path.findIdx? isWildcard with
    | none => none
    | some i =>
      let name := (path.drop (i + 1)).takeWhile (fun c => c ≠ byte '/')
      let stop := i + 1 + name.length
      if name.any isWildcard then
        none
      else if ch.length > 0 then
        none
      else if stop - i < 2 then
        none
      else if path.get? i = some (byte ':') then
        let npath := if i > 0 then path.take i else npath
        let offset := if i > 0 then i else 0
        if stop < path.length then
          match insertChild numParams (path.drop stop) handle
              (node.mk [] false nodeType.static numParams 1 [] [] none) with
          | none => none
          | some grand =>
            some (node.mk npath true t mp pr ind
              [node.mk ((path.drop offset).take (stop - offset)) false
                nodeType.param (numParams + 1) 1 [] [grand] none] h)
        else if numParams = 0 then
          some (node.mk npath true t mp pr ind
            [node.mk (path.drop offset) false nodeType.param (numParams + 1) 1
              [] [] (some handle)] h)
        else
          none
      else if stop ≠ path.length ∨ numParams + 1 > 1 then
        none
      else if npath.length > 0 ∧ npath.getLast? = some (byte '/') then
        none
      else if i = 0 then
        none
      else if path.get? (i - 1) ≠ some (byte '/') then
        none
      else
        some (node.mk (path.take (i - 1)) w t mp pr [byte '/']
          [node.mk [] true nodeType.catchAll 1 1 [] 
            [node.mk (path.drop (i - 1)) false nodeType.catchAll 1 1 [] []
              (some handle)] none] h)

/-- Go `(*node).addRoute(path, handle)` on an empty tree: `insertChild`,
then the node becomes the root.  The result is `none` when the Go function
panics and for a tree that already holds a route: the insertion into a
non-empty tree is not modelled. -/
def node.addRoute : node → GoString → Handle → Option node
  | node.mk npath w t mp pr ind ch h, path, handle =>
    if npath.length > 0 ∨ ch.length > 0 then
      none
    else
      (insertChild (countParams path) path handle
        (node.mk npath w t mp (pr + 1) ind ch h)).map
        (fun n => n.setType nodeType.root)

/-- The result of `getValue`: the handle (`none` for nil), the parameters
and the recommendation of a trailing-slash redirect. -/
structure Lookup where
  handle : Option Handle
  ps : Params
  tsr : Bool

mutual
/-- Go `(*node).getValue(path)`: the walk down the tree.  `p` holds the
parameters found so far and `cap` the capacity they were allocated with.
The result is `none` when the Go function panics. -/
def node.getValue : node → GoString → Params → Nat → Option Lookup
  | node.mk npath wildChild nType _ _ indices children handle, path, p, cap =>
    if path.length > npath.length then
      if path.take npath.length = npath then
        if !wildChild then
          match indices.indexOf? ((path.drop npath.length).headD 0) with
          | some i => getValueAt children i (path.drop npath.length) p cap
          | none =>
            some
              { handle := none, ps := p
                tsr := path.drop npath.length = go "/" ∧ handle.isSome }
        else
          getValueWild children (path.drop npath.length) p cap
      else
        some
          { handle := none, ps := p
            tsr := path = go "/" ∨
              (npath.length = path.length + 1 ∧
                npath.get? path.length = some (byte '/') ∧
                path = npath.take (npath.length - 1) ∧ handle.isSome) }
    else if path = npath then
      if handle.isSome then
        some { handle := handle, ps := p, tsr := false }
      else if path = go "/" ∧ wildChild ∧ nType ≠ nodeType.root then
        some { handle := none, ps := p, tsr := true }
      else
        match indices.indexOf? (byte '/') with
        | none => some { handle := none, ps := p, tsr := false }
        | some i =>
          match children.get? i with
          | none => none
          | some n =>
            if n.path.length = 1 ∧ n.handle.isSome then
              some { handle := none, ps := p, tsr := true }
            else if n.nType = nodeType.catchAll then
              match n.children with
              | [] => none
              | g :: _ => some { handle := none, ps := p, tsr := g.handle.isSome }
            else
              some { handle := none, ps := p, tsr := false }
    else
      some
        { handle := none, ps := p
          tsr := path = go "/" ∨
            (npath.length = path.length + 1 ∧
              npath.get? path.length = some (byte '/') ∧
              path = npath.take (npath.length - 1) ∧ handle.isSome) }
/-- The step `n = n.children[i]; continue walk` of `getValue`. -/
def getValueAt : List node → Nat → GoString → Params → Nat → Option Lookup
  | [], _, _, _, _ => none
  | n :: _, 0, path, p, cap => n.getValue path p cap
  | _ :: rest, i + 1, path, p, cap => getValueAt rest i path p cap
/-- The step `n = n.children[0]` of `getValue` for a wildcard child,
followed by the `switch n.nType`. -/
def getValueWild : List node → GoString → Params → Nat → Option Lookup
  | [], _, _, _ => none
  | node.mk npath _ nType maxParams _ _ children handle :: _, path, p, cap =>
    if p.length + 1 > (if p = [] then maxParams else cap) then
      none
    else
      match nType with
      | nodeType.param =>
        if npath.length < 1 then
          none
        else if (path.takeWhile (fun c => c ≠ byte '/')).length < path.length then
          if children.length > 0 then
            getValueAt children 0
              (path.drop (path.takeWhile (fun c => c ≠ byte '/')).length)
              (p ++ [(npath.drop 1, path.takeWhile (fun c => c ≠ byte '/'))])
              (if p = [] then maxParams else cap)
          else
            some
              { handle := none
                ps := p ++ [(npath.drop 1, path.takeWhile (fun c => c ≠ byte '/'))]
                tsr := path.length =
                  (path.takeWhile (fun c => c ≠ byte '/')).length + 1 }
        else if handle.isSome then
          some
            { handle := handle
              ps := p ++ [(npath.drop 1, path.takeWhile (fun c => c ≠ byte '/'))]
              tsr := false }
        else
          match children with
          | [n] =>
            some
              { handle := none
                ps := p ++ [(npath.drop 1, path.takeWhile (fun c => c ≠ byte '/'))]
                tsr := n.path = go "/" ∧ n.handle.isSome }
          | _ =>
            some
              { handle := none
                ps := p ++ [(npath.drop 1, path.takeWhile (fun c => c ≠ byte '/'))]
                tsr := false }
      | nodeType.catchAll =>
        if npath.length < 2 then
          none
        else
          some { handle := handle, ps := p ++ [(npath.drop 2, path)], tsr := false }
      | _ => none
end

/-! ## `httprouter` (v1.3.0): the router -/

/-- Go `httprouter.Router`.  `trees` is the map from method to root node, in
the order of insertion.  A router made by `New` has nil `NotFound`,
`MethodNotAllowed`, `GlobalOPTIONS` and `PanicHandler`, and `main.go` sets
none of them: the record has no field for them. -/
structure Router where
  trees : List (GoString × node)
  RedirectTrailingSlash : Bool
  RedirectFixedPath : Bool
  HandleMethodNotAllowed : Bool
  HandleOPTIONS : Bool
  globalAllowed : GoString

/-- Go `httprouter.New()`. -/
def New : Router :=
  { trees := []
    RedirectTrailingSlash := true
    RedirectFixedPath := true
    HandleMethodNotAllowed := true
    HandleOPTIONS := true
    globalAllowed := [] }

/-- The map access `r.trees[method]`; `none` is the nil root. -/
def Router.tree (r : Router) (method : GoString) : Option node :=
  (r.trees.find? (fun kv => kv.1 = method)).map Prod.snd

/-- The Go comparison `a < b` of two strings: lexicographic on bytes. -/
def strLess : GoString → GoString → Bool
  | _, [] => false
  | [], _ :: _ => true
  | a :: s, b :: t => a < b ∨ (a = b ∧ strLess s t)

/-- One pass of the insertion sort in `allowed`: `x` moves left as long as
it is less than its left neighbour in the sorted list `l`. -/
def insertSorted (l : List GoString) (x : GoString) : List GoString :=
  l.takeWhile (fun y => !strLess x y) ++ [x] ++
    l.dropWhile (fun y => !strLess x y)

/-- Go `strings.Join(elems, sep)`. -/
def Join : List GoString → GoString → GoString
  | [], _ => []
  | [a], _ => a
  | a :: b :: rest, sep => a ++ sep ++ Join (b :: rest) sep

/-- The loop of `allowed` over the trees for a specific path: the methods,
other than the requested one and `OPTIONS`, whose tree has a handle for
`path`; `none` when a lookup panics. -/
def allowedMethods (path reqMethod : GoString) :
    List (GoString × node) → Option (List GoString)
  | [] => some []
  | (method, tree) :: rest =>
    if method = reqMethod ∨ method = go "OPTIONS" then
      allowedMethods path reqMethod rest
    else
      match tree.getValue path [] 0 with
      | none => none
      | some l =>
        (allowedMethods path reqMethod rest).map
          (fun ms => if l.handle.isSome then method :: ms else ms)

/-- Go `(*Router).allowed(path, reqMethod)`: the value of the `Allow`
header, empty when no method is allowed; `none` when a lookup panics. -/
def Router.allowed (r : Router) (path reqMethod : GoString) :
    Option GoString :=
  if path = go "*" ∧ reqMethod ≠ [] then
    some r.globalAllowed
  else
    let found : Option (List GoString) :=
      if path = go "*" then
        some ((r.trees.map Prod.fst).filter (fun m => m ≠ go "OPTIONS"))
      else
        allowedMethods path reqMethod r.trees
    found.map fun allowed =>
      if allowed.length > 0 then
        Join ((allowed ++ [go "OPTIONS"]).foldl insertSorted []) (go ", ")
      else
        []

/-- Go `(*Router).Handle(method, path, handle)`: the router with the route
registered; `none` when the Go function panics, and where `addRoute` is not
modelled. -/
def Router.Handle (r : Router) (method path : GoString)
    (handle : Frequency.Handle) :
    Option Router :=
  if path.length < 1 ∨ path.head? ≠ some (byte '/') then
    none
  else
    match r.tree method with
    | some root =>
      (root.addRoute path handle).map fun root =>
        { r with
          trees :=
            r.trees.map (fun kv => if kv.1 = method then (method, root) else kv) }
    | none =>
      let r : Router :=
        { r with
          trees :=
            r.trees ++
              [(method, node.mk [] false nodeType.static 0 0 [] [] none)] }
      match r.allowed (go "*") (go "") with
      | none => none
      | some ga =>
        match r.tree method with
        | none => none
        | some root =>
          (root.addRoute path handle).map fun root =>
            { r with
              globalAllowed := ga
              trees :=
                r.trees.map
                  (fun kv => if kv.1 = method then (method, root) else kv) }

/-- Go `(*Router).GET(path, handle)`. -/
def Router.GET (r : Router) (path : GoString) (handle : Frequency.Handle) :
    Option Router :=
  r.Handle (go "GET") path handle

/-- The part of `(*Router).ServeHTTP` that follows the lookup in the tree of
the request method: the answer to `OPTIONS`, the 405 answer, and the 404
answer of `http.NotFound`. -/
def Router.serveUnrouted (r : Router) (req : Request) : Option Response :=
  if req.Method = go "OPTIONS" ∧ r.HandleOPTIONS then
    match r.allowed req.URL.Path (go "OPTIONS") with
    | none => none
    | some allow =>
      if allow ≠ [] then
        some { Code := StatusOK, Header := [("Allow", allow)] }
      else
        some (Error [] StatusNotFound)
  else if r.HandleMethodNotAllowed then
    match r.allowed req.URL.Path req.Method with
    | none => none
    | some allow =>
      if allow ≠ [] then
        some (Error [("Allow", allow)] StatusMethodNotAllowed)
      else
        some (Error [] StatusNotFound)
  else
    some (Error [] StatusNotFound)

/-- Go `(*Router).ServeHTTP(w, req)`.  The result is `none` when the router
panics (no `PanicHandler` is set), and where the model ends: for the repair
of the request path under `RedirectFixedPath` (`CleanPath` and
`findCaseInsensitivePath`), which is reached only when the tree of the
method has neither a handle nor a trailing-slash recommendation for the
path. -/
def Router.ServeHTTP (r : Router) (req : Request) : Option Response :=
  match r.tree req.Method with
  | none => r.serveUnrouted req
  | some root =>
    match root.getValue req.URL.Path [] 0 with
    | none => none
    | some l =>
      match l.handle with
      | some handle => handle req l.ps
      | none =>
        if req.Method ≠ go "CONNECT" ∧ req.URL.Path ≠ go "/" then
          if l.tsr ∧ r.RedirectTrailingSlash then
            let req : Request :=
              { req with
                URL :=
                  { req.URL with
                    Path :=
                      if req.URL.Path.length > 1 ∧
                          req.URL.Path.getLast? = some (byte '/') then
                        req.URL.Path.take (req.URL.Path.length - 1)
                      else
                        req.URL.Path ++ go "/" } }
            Redirect req req.URL.String
              (if req.Method ≠ go "GET" then StatusTemporaryRedirect
               else StatusMovedPermanently)
          else if r.RedirectFixedPath then
            none
          else
            r.serveUnrouted req
        else
          r.serveUnrouted req

/-! ## The plaintext listener (main.go 256-275) -/

/-- The handler registered on the redirect router:
`r.URL.Scheme = "https"; r.URL.Host = httpHost;`
`http.Redirect(w, r, r.URL.String(), http.StatusFound)`. -/
def redirHandler (httpHost : GoString) (r : Request) : Option Response :=
  let r : Request :=
    { r with URL := { r.URL with Scheme := go "https", Host := httpHost } }
  Redirect r r.URL.String StatusFound

/-- The router `redir`: `httprouter.New()` with the single route
`redir.GET("/*path", ...)`; the handler ignores the parameters. -/
def redir (httpHost : GoString) : Option Router :=
  New.GET (go "/*path") (fun r _ => redirHandler httpHost r)

/-- The handler `certmanager.HTTPHandler(redir)` of autocert: a request whose
path lies in the challenge namespace `/.well-known/acme-challenge/` goes to
the challenge responder of the certificate manager (a parameter here), every
other request to the fallback handler. -/
def HTTPHandler (challenge fallback : Request → Option Response)
    (r : Request) : Option Response :=
  if !HasPrefix r.URL.Path (go "/.well-known/acme-challenge/") then
    fallback r
  else
    challenge r

/-- The handler of the server `httpd` on port 80. -/
def httpd (challenge : Request → Option Response) (httpHost : GoString)
    (r : Request) : Option Response :=
  HTTPHandler challenge
    (fun r => (redir httpHost).bind (fun router => router.ServeHTTP r)) r

/-! ## The keepalive listener (main.go 319-331) -/

/-- Go `time.Minute`, in nanoseconds (the unit of `time.Duration`). -/
def Minute : Nat := 60 * 1000000000

/-- The socket state of a Go `*net.TCPConn` that the listener touches: the
connection itself (its descriptor) and its two keepalive options. -/
structure TCPConn where
  fd : Nat
  keepAlive : Bool
  keepAlivePeriod : Nat
  deriving DecidableEq, Repr

/-- An error returned by `AcceptTCP`. -/
structure NetError where
  msg : String
  deriving DecidableEq, Repr

/-- Go `(*TCPConn).SetKeepAlive`.  Its error result, which `Accept`
discards, is not modelled. -/
def TCPConn.SetKeepAlive (c : TCPConn) (keepalive : Bool) : TCPConn :=
  { c with keepAlive := keepalive }

/-- Go `(*TCPConn).SetKeepAlivePeriod`.  Its error result, which `Accept`
discards, is not modelled. -/
def TCPConn.SetKeepAlivePeriod (c : TCPConn) (d : Nat) : TCPConn :=
  { c with keepAlivePeriod := d }

/-- The method `tcpKeepAliveListener.Accept`, as a function of what the
embedded listener's `AcceptTCP` returns.  The result is the pair
`(c, err)` of the Go function; `none` is `nil`. -/
def Accept (acceptTCP : Except NetError TCPConn) :
    Option TCPConn × Option NetError :=
  match acceptTCP with
  | Except.error err => (none, some err)
  | Except.ok tc =>
    let tc := tc.SetKeepAlive true
    let tc := tc.SetKeepAlivePeriod (10 * Minute)
    (some tc, none)

/-! ## The TLS configuration (main.go 277-293) -/

/-- The key exchange of a cipher suite. -/
inductive KeyExchange where
  | RSA
  | ECDHE_RSA
  | ECDHE_ECDSA
  deriving DecidableEq, Repr

/-- The bulk cipher of a cipher suite. -/
inductive Cipher where
  | RC4_128
  | TRIPLE_DES_EDE_CBC
  | AES_128_CBC
  | AES_256_CBC
  | AES_128_GCM
  | AES_256_GCM
  | CHACHA20_POLY1305
  deriving DecidableEq, Repr

/-- The cipher suites of Go `crypto/tls` that a `tls.Config` can list in
`CipherSuites` (the TLS 1.0-1.2 suites). -/
inductive CipherSuite where
  | TLS_RSA_WITH_RC4_128_SHA
  | TLS_RSA_WITH_3DES_EDE_CBC_SHA
  | TLS_RSA_WITH_AES_128_CBC_SHA
  | TLS_RSA_WITH_AES_256_CBC_SHA
  | TLS_RSA_WITH_AES_128_CBC_SHA256
  | TLS_RSA_WITH_AES_128_GCM_SHA256
  | TLS_RSA_WITH_AES_256_GCM_SHA384
  | TLS_ECDHE_ECDSA_WITH_RC4_128_SHA
  | TLS_ECDHE_ECDSA_WITH_AES_128_CBC_SHA
  | TLS_ECDHE_ECDSA_WITH_AES_256_CBC_SHA
  | TLS_ECDHE_RSA_WITH_RC4_128_SHA
  | TLS_ECDHE_RSA_WITH_3DES_EDE_CBC_SHA
  | TLS_ECDHE_RSA_WITH_AES_128_CBC_SHA
  | TLS_ECDHE_RSA_WITH_AES_256_CBC_SHA
  | TLS_ECDHE_ECDSA_WITH_AES_128_CBC_SHA256
  | TLS_ECDHE_RSA_WITH_AES_128_CBC_SHA256
  | TLS_ECDHE_RSA_WITH_AES_128_GCM_SHA256
  | TLS_ECDHE_ECDSA_WITH_AES_128_GCM_SHA256
  | TLS_ECDHE_RSA_WITH_AES_256_GCM_SHA384
  | TLS_ECDHE_ECDSA_WITH_AES_256_GCM_SHA384
  | TLS_ECDHE_RSA_WITH_CHACHA20_POLY1305
  | TLS_ECDHE_ECDSA_WITH_CHACHA20_POLY1305
  deriving DecidableEq, Repr

open CipherSuite in
/-- The `uint16` value of each cipher-suite constant of `crypto/tls`. -/
def CipherSuite.id : CipherSuite → Nat
  | TLS_RSA_WITH_RC4_128_SHA => 0x0005
  | TLS_RSA_WITH_3DES_EDE_CBC_SHA => 0x000a
  | TLS_RSA_WITH_AES_128_CBC_SHA => 0x002f
  | TLS_RSA_WITH_AES_256_CBC_SHA => 0x0035
  | TLS_RSA_WITH_AES_128_CBC_SHA256 => 0x003c
  | TLS_RSA_WITH_AES_128_GCM_SHA256 => 0x009c
  | TLS_RSA_WITH_AES_256_GCM_SHA384 => 0x009d
  | TLS_ECDHE_ECDSA_WITH_RC4_128_SHA => 0xc007
  | TLS_ECDHE_ECDSA_WITH_AES_128_CBC_SHA => 0xc009
  | TLS_ECDHE_ECDSA_WITH_AES_256_CBC_SHA => 0xc00a
  | TLS_ECDHE_RSA_WITH_RC4_128_SHA => 0xc011
  | TLS_ECDHE_RSA_WITH_3DES_EDE_CBC_SHA => 0xc012
  | TLS_ECDHE_RSA_WITH_AES_128_CBC_SHA => 0xc013
  | TLS_ECDHE_RSA_WITH_AES_256_CBC_SHA => 0xc014
  | TLS_ECDHE_ECDSA_WITH_AES_128_CBC_SHA256 => 0xc023
  | TLS_ECDHE_RSA_WITH_AES_128_CBC_SHA256 => 0xc027
  | TLS_ECDHE_RSA_WITH_AES_128_GCM_SHA256 => 0xc02f
  | TLS_ECDHE_ECDSA_WITH_AES_128_GCM_SHA256 => 0xc02b
  | TLS_ECDHE_RSA_WITH_AES_256_GCM_SHA384 => 0xc030
  | TLS_ECDHE_ECDSA_WITH_AES_256_GCM_SHA384 => 0xc02c
  | TLS_ECDHE_RSA_WITH_CHACHA20_POLY1305 => 0xcca8
  | TLS_ECDHE_ECDSA_WITH_CHACHA20_POLY1305 => 0xcca9

open CipherSuite in
/-- The key exchange named by each cipher-suite constant. -/
def CipherSuite.keyExchange : CipherSuite → KeyExchange
  | TLS_RSA_WITH_RC4_128_SHA => KeyExchange.RSA
  | TLS_RSA_WITH_3DES_EDE_CBC_SHA => KeyExchange.RSA
  | TLS_RSA_WITH_AES_128_CBC_SHA => KeyExchange.RSA
  | TLS_RSA_WITH_AES_256_CBC_SHA => KeyExchange.RSA
  | TLS_RSA_WITH_AES_128_CBC_SHA256 => KeyExchange.RSA
  | TLS_RSA_WITH_AES_128_GCM_SHA256 => KeyExchange.RSA
  | TLS_RSA_WITH_AES_256_GCM_SHA384 => KeyExchange.RSA
  | TLS_ECDHE_ECDSA_WITH_RC4_128_SHA => KeyExchange.ECDHE_ECDSA
  | TLS_ECDHE_ECDSA_WITH_AES_128_CBC_SHA => KeyExchange.ECDHE_ECDSA
  | TLS_ECDHE_ECDSA_WITH_AES_256_CBC_SHA => KeyExchange.ECDHE_ECDSA
  | TLS_ECDHE_RSA_WITH_RC4_128_SHA => KeyExchange.ECDHE_RSA
  | TLS_ECDHE_RSA_WITH_3DES_EDE_CBC_SHA => KeyExchange.ECDHE_RSA
  | TLS_ECDHE_RSA_WITH_AES_128_CBC_SHA => KeyExchange.ECDHE_RSA
  | TLS_ECDHE_RSA_WITH_AES_256_CBC_SHA => KeyExchange.ECDHE_RSA
  | TLS_ECDHE_ECDSA_WITH_AES_128_CBC_SHA256 => KeyExchange.ECDHE_ECDSA
  | TLS_ECDHE_RSA_WITH_AES_128_CBC_SHA256 => KeyExchange.ECDHE_RSA
  | TLS_ECDHE_RSA_WITH_AES_128_GCM_SHA256 => KeyExchange.ECDHE_RSA
  | TLS_ECDHE_ECDSA_WITH_AES_128_GCM_SHA256 => KeyExchange.ECDHE_ECDSA
  | TLS_ECDHE_RSA_WITH_AES_256_GCM_SHA384 => KeyExchange.ECDHE_RSA
  | TLS_ECDHE_ECDSA_WITH_AES_256_GCM_SHA384 => KeyExchange.ECDHE_ECDSA
  | TLS_ECDHE_RSA_WITH_CHACHA20_POLY1305 => KeyExchange.ECDHE_RSA
  | TLS_ECDHE_ECDSA_WITH_CHACHA20_POLY1305 => KeyExchange.ECDHE_ECDSA

open CipherSuite in
/-- The bulk cipher named by each cipher-suite constant. -/
def CipherSuite.cipher : CipherSuite → Cipher
  | TLS_RSA_WITH_RC4_128_SHA => Cipher.RC4_128
  | TLS_RSA_WITH_3DES_EDE_CBC_SHA => Cipher.TRIPLE_DES_EDE_CBC
  | TLS_RSA_WITH_AES_128_CBC_SHA => Cipher.AES_128_CBC
  | TLS_RSA_WITH_AES_256_CBC_SHA => Cipher.AES_256_CBC
  | TLS_RSA_WITH_AES_128_CBC_SHA256 => Cipher.AES_128_CBC
  | TLS_RSA_WITH_AES_128_GCM_SHA256 => Cipher.AES_128_GCM
  | TLS_RSA_WITH_AES_256_GCM_SHA384 => Cipher.AES_256_GCM
  | TLS_ECDHE_ECDSA_WITH_RC4_128_SHA => Cipher.RC4_128
  | TLS_ECDHE_ECDSA_WITH_AES_128_CBC_SHA => Cipher.AES_128_CBC
  | TLS_ECDHE_ECDSA_WITH_AES_256_CBC_SHA => Cipher.AES_256_CBC
  | TLS_ECDHE_RSA_WITH_RC4_128_SHA => Cipher.RC4_128
  | TLS_ECDHE_RSA_WITH_3DES_EDE_CBC_SHA => Cipher.TRIPLE_DES_EDE_CBC
  | TLS_ECDHE_RSA_WITH_AES_128_CBC_SHA => Cipher.AES_128_CBC
  | TLS_ECDHE_RSA_WITH_AES_256_CBC_SHA => Cipher.AES_256_CBC
  | TLS_ECDHE_ECDSA_WITH_AES_128_CBC_SHA256 => Cipher.AES_128_CBC
  | TLS_ECDHE_RSA_WITH_AES_128_CBC_SHA256 => Cipher.AES_128_CBC
  | TLS_ECDHE_RSA_WITH_AES_128_GCM_SHA256 => Cipher.AES_128_GCM
  | TLS_ECDHE_ECDSA_WITH_AES_128_GCM_SHA256 => Cipher.AES_128_GCM
  | TLS_ECDHE_RSA_WITH_AES_256_GCM_SHA384 => Cipher.AES_256_GCM
  | TLS_ECDHE_ECDSA_WITH_AES_256_GCM_SHA384 => Cipher.AES_256_GCM
  | TLS_ECDHE_RSA_WITH_CHACHA20_POLY1305 => Cipher.CHACHA20_POLY1305
  | TLS_ECDHE_ECDSA_WITH_CHACHA20_POLY1305 => Cipher.CHACHA20_POLY1305

/-- The suite uses an ephemeral (EC)DHE key exchange: it is forward
secret. -/
def CipherSuite.isECDHE (s : CipherSuite) : Bool :=
  s.keyExchange = KeyExchange.ECDHE_RSA ∨ s.keyExchange = KeyExchange.ECDHE_ECDSA

/-- The bulk cipher of the suite is an AEAD: AES-GCM or
ChaCha20-Poly1305. -/
def CipherSuite.isAEAD (s : CipherSuite) : Bool :=
  s.cipher = Cipher.AES_128_GCM ∨ s.cipher = Cipher.AES_256_GCM ∨
    s.cipher = Cipher.CHACHA20_POLY1305

/-- Go `tls.VersionTLS12`. -/
def VersionTLS12 : Nat := 0x0303

/-- The fields of Go `tls.Config` that `main.go` sets to fixed values
(`GetCertificate` and `Rand` are function and reader values and are not
part of the record). -/
structure TLSConfig where
  NextProtos : List GoString
  PreferServerCipherSuites : Bool
  MinVersion : Nat
  CipherSuites : List CipherSuite
  deriving DecidableEq, Repr

/-- The value `tlsConfig` built in `main`. -/
def tlsConfig : TLSConfig :=
  { NextProtos := [go "http/1.1"]
    PreferServerCipherSuites := true
    MinVersion := VersionTLS12
    CipherSuites :=
      [ CipherSuite.TLS_ECDHE_ECDSA_WITH_AES_256_GCM_SHA384,
        CipherSuite.TLS_ECDHE_ECDSA_WITH_CHACHA20_POLY1305,
        CipherSuite.TLS_ECDHE_ECDSA_WITH_AES_128_GCM_SHA256,
        CipherSuite.TLS_ECDHE_RSA_WITH_AES_256_GCM_SHA384,
        CipherSuite.TLS_ECDHE_RSA_WITH_CHACHA20_POLY1305,
        CipherSuite.TLS_ECDHE_RSA_WITH_AES_128_GCM_SHA256 ] }

/-! ## Flag handling at startup (main.go 98-121) -/

/-- What the flag handling prints. -/
inductive Output where
  /-- The call `usage(msg)`: the error line, the usage line and the flag
  defaults, on standard error. -/
  | usage (msg : String)
  /-- The line `Frequency Analytics <version>` on standard output. -/
  | version
  deriving DecidableEq, Repr

/-- The flag handling of `main` after `cli.Parse`: what is printed, and the
code of `os.Exit` when the process exits here (`none` when `main` goes
on). -/
def flagHandling (showHelp showVersion : Bool) (httpHost : GoString) :
    List Output × Option Nat :=
  if showHelp then
    ([Output.usage "Help info"], some 0)
  else if showVersion then
    ([Output.version], some 0)
  else if httpHost = [] then
    ([Output.usage "the --http-host flag is required"], some 1)
  else
    ([], none)

/-! ## Process lifecycle: the SIGINT handler (main.go 130-139) -/

/-- The calls the SIGINT goroutine makes that act on the process. -/
inductive Action where
  | StopCPUProfile
  | Exit (code : Nat)
  deriving DecidableEq, Repr

/-- The body of the SIGINT goroutine after the receive `<-sigint` has
returned: `if cpuprofile != "" { pprof.StopCPUProfile() }; os.Exit(0)`. -/
def sigintHandler (cpuprofile : GoString) : List Action :=
  (if cpuprofile ≠ [] then [Action.StopCPUProfile] else []) ++ [Action.Exit 0]

/-- The process, as far as the lifecycle is concerned. -/
structure Proc where
  /-- The flag `-cpuprofile`. -/
  cpuprofile : GoString
  /-- A CPU profile is being recorded. -/
  profiling : Bool
  /-- The SIGINT goroutine: `none` while it is blocked in `<-sigint`, the
  calls it has still to make once the receive has returned. -/
  handler : Option (List Action)
  /-- The code passed to `os.Exit`, once the process has exited. -/
  exited : Option Nat
  /-- The number of requests the two servers have processed. -/
  served : Nat
  /-- The calls the SIGINT goroutine has made, in order. -/
  trace : List Action
  deriving DecidableEq, Repr

/-- What can happen next: an interrupt signal arrives, the SIGINT goroutine
makes its next call, or one of the server goroutines (`httpd.ListenAndServe`,
`httpsd.Serve`) processes a request. -/
inductive Event where
  | interrupt
  | handler
  | serve
  deriving DecidableEq, Repr

/-- The effect of one call of the SIGINT goroutine on the process:
`pprof.StopCPUProfile()` stops the current CPU profile, if any; `os.Exit`
ends the process. -/
def perform (s : Proc) : Action → Proc
  | Action.StopCPUProfile =>
    { s with profiling := false, trace := s.trace ++ [Action.StopCPUProfile] }
  | Action.Exit code =>
    { s with exited := some code, trace := s.trace ++ [Action.Exit code] }

/-- One step of the process; `none` when the event cannot happen.  The
goroutines of the process run interleaved: as long as the process has not
exited, the servers go on processing requests.  The channel `sigint` is read
once, by the SIGINT goroutine: a signal that arrives after the receive has
returned is not acted upon. -/
def step (s : Proc) (e : Event) : Option Proc :=
  if s.exited.isSome then
    none
  else
    match e with
    | Event.interrupt =>
      match s.handler with
      | none => some { s with handler := some (sigintHandler s.cpuprofile) }
      | some _ => some s
    | Event.handler =>
      match s.handler with
      | none => none
      | some [] => none
      | some (a :: rest) => some { perform s a with handler := some rest }
    | Event.serve => some { s with served := s.served + 1 }

/-- The process after a sequence of events. -/
def steps : Proc → List Event → Option Proc
  | s, [] => some s
  | s, e :: es =>
    match step s e with
    | none => none
    | some t => steps t es

/-- State `Running`: the process has not exited and no interrupt has been
received. -/
def Running (s : Proc) : Prop :=
  s.exited = none ∧ s.handler = none

/-- State `Terminating`: an interrupt has been received and the process has
not exited yet. -/
def Terminating (s : Proc) : Prop :=
  s.exited = none ∧ s.handler.isSome

instance (s : Proc) : Decidable (Running s) := by
  unfold Running; infer_instance

instance (s : Proc) : Decidable (Terminating s) := by
  unfold Terminating; infer_instance

/-! ## Theorems: host policy -/

theorem trimPrefix_append (pre t : GoString) : TrimPrefix (pre ++ t) pre = t := by
  simp [TrimPrefix, HasPrefix]

/-- C1: for every hostname `h`, primary FQDN `httpHost` and configured
secondary domain, the host policy returns nil exactly when
`strings.TrimPrefix(h, "www.")` equals the primary FQDN or the secondary
domain, and the not-permitted error in every other case; a leading `www.` is
removed, and `eviLwww.example.com`, where `www.` is not leading, is compared
unstripped. -/
theorem hostPolicy_permitted_iff (httpHost : GoString) (config : Config)
    (h : GoString) :
    (HostPolicy httpHost config h = none ↔
      (TrimPrefix h (go "www.") = httpHost ∨
        TrimPrefix h (go "www.") = config.FindInfo.Domain)) ∧
    (HostPolicy httpHost config h =
        some (PolicyError.hostNotPermitted (TrimPrefix h (go "www."))) ↔
      ¬ (TrimPrefix h (go "www.") = httpHost ∨
        TrimPrefix h (go "www.") = config.FindInfo.Domain)) ∧
    (∀ t : GoString, TrimPrefix (go "www." ++ t) (go "www.") = t) ∧
    TrimPrefix (go "eviLwww.example.com") (go "www.") =
      go "eviLwww.example.com" ∧
    (HostPolicy httpHost config (go "eviLwww.example.com") = none ↔
      (go "eviLwww.example.com" = httpHost ∨
        go "eviLwww.example.com" = config.FindInfo.Domain)) := by
  have key : ∀ x : GoString,
      (HostPolicy httpHost config x = none ↔
        (TrimPrefix x (go "www.") = httpHost ∨
          TrimPrefix x (go "www.") = config.FindInfo.Domain)) := by
    intro x
    unfold HostPolicy
    by_cases h1 : TrimPrefix x (go "www.") = httpHost
    · simp [h1]
    · by_cases h2 : TrimPrefix x (go "www.") = config.FindInfo.Domain
      · simp [h2]
      · simp [h1, h2]
  have evil : TrimPrefix (go "eviLwww.example.com") (go "www.") =
      go "eviLwww.example.com" := by decide
  refine ⟨key h, ?_, fun t => trimPrefix_append _ t, evil, ?_⟩
  · unfold HostPolicy
    by_cases h1 : TrimPrefix h (go "www.") = httpHost
    · simp [h1]
    · by_cases h2 : TrimPrefix h (go "www.") = config.FindInfo.Domain
      · simp [h2]
      · simp [h1, h2]
  · have := key (go "eviLwww.example.com")
    rw [evil] at this
    exact this

/-- C3: the claim requires a non-nil error for the empty hostname in every
configuration; with the primary FQDN `example.com` and no secondary domain
configured (`Domain` is the empty string), the closure returns nil for the
empty hostname: the comparison with `config.FindInfo().Domain` has no guard
against an empty `Domain`, unlike `httpHost`, which `main` refuses when
empty. -/
theorem hostPolicy_empty_host_permitted :
    go "example.com" ≠ go "" ∧
    HostPolicy (go "example.com")
      { info := { Domain := go "", HashKey := go "k", BlockKey := go "b" } }
      (go "") = none := by
  decide

/-- C8, refuted as stated: two calls of the closure on the same hostname, in
processes with the same `httpHost` and the same configuration at startup,
give different verdicts when the secondary domain of the configuration was
changed before one of the calls. -/
theorem hostPolicy_verdict_not_fixed_at_startup :
    (Globals.mk (go "example.com")
        { info := { Domain := go "old.example.org", HashKey := go "k",
                    BlockKey := go "b" } }
        { info := { Domain := go "old.example.org", HashKey := go "k",
                    BlockKey := go "b" } }).verdict (go "new.example.org") =
      some (PolicyError.hostNotPermitted (go "new.example.org")) ∧
    (Globals.mk (go "example.com")
        { info := { Domain := go "old.example.org", HashKey := go "k",
                    BlockKey := go "b" } }
        { info := { Domain := go "new.example.org", HashKey := go "k",
                    BlockKey := go "b" } }).verdict (go "new.example.org") =
      none := by
  decide

/-- C8, amended: the verdict of the host policy depends only on the
hostname, on `httpHost` and on the secondary domain that
`config.FindInfo()` returns at the moment of the call: two calls on the same
hostname with the same `httpHost` and the same current secondary domain give
equal verdicts, whatever the configuration was at startup and whatever else
differs in it. -/
theorem hostPolicy_verdict_depends_on_current_domain (g1 g2 : Globals)
    (h : GoString) (hHost : g1.httpHost = g2.httpHost)
    (hDomain : g1.config.FindInfo.Domain = g2.config.FindInfo.Domain) :
    g1.verdict h = g2.verdict h := by
  unfold Globals.verdict HostPolicy
  rw [hHost, hDomain]

theorem hostPolicy_verdict_depends_on_current_domain_witness :
    (Globals.mk (go "example.com")
        { info := { Domain := go "old.example.org", HashKey := go "k1",
                    BlockKey := go "b1" } }
        { info := { Domain := go "example.org", HashKey := go "k1",
                    BlockKey := go "b1" } }).verdict (go "www.example.org") =
    (Globals.mk (go "example.com")
        { info := { Domain := go "example.org", HashKey := go "k2",
                    BlockKey := go "b2" } }
        { info := { Domain := go "example.org", HashKey := go "k2",
                    BlockKey := go "b2" } }).verdict (go "www.example.org") :=
  hostPolicy_verdict_depends_on_current_domain _ _ _ rfl rfl

/-- C10, refuted as stated: `WWW.Example.com` and `www.example.com` differ
only in the letter case of ASCII characters, and with the primary FQDN
`example.com` the host policy rejects the first and permits the second. -/
theorem hostPolicy_case_sensitive :
    EqualUpToAsciiCase (go "WWW.Example.com") (go "www.example.com") ∧
    HostPolicy (go "example.com")
      { info := { Domain := go "", HashKey := go "k", BlockKey := go "b" } }
      (go "WWW.Example.com") =
      some (PolicyError.hostNotPermitted (go "WWW.Example.com")) ∧
    HostPolicy (go "example.com")
      { info := { Domain := go "", HashKey := go "k", BlockKey := go "b" } }
      (go "www.example.com") = none := by
  decide

/-- C10, amended: the host policy compares bytes and folds no letter case:
for every fixed pair of canonical hostnames and every two hostnames `h1` and
`h2` (in particular two that differ only in letter case), the closure gives
the same verdict for `h1` as for `h2` exactly when their forms after
`strings.TrimPrefix(h, "www.")` are equal byte for byte, or are both equal,
byte for byte, to a canonical hostname. -/
theorem hostPolicy_same_verdict_iff (httpHost : GoString) (config : Config)
    (h1 h2 : GoString) :
    HostPolicy httpHost config h1 = HostPolicy httpHost config h2 ↔
      (TrimPrefix h1 (go "www.") = TrimPrefix h2 (go "www.") ∨
        ((TrimPrefix h1 (go "www.") = httpHost ∨
            TrimPrefix h1 (go "www.") = config.FindInfo.Domain) ∧
          (TrimPrefix h2 (go "www.") = httpHost ∨
            TrimPrefix h2 (go "www.") = config.FindInfo.Domain))) := by
  have key : ∀ t : GoString,
      (if t = httpHost then (none : Option PolicyError)
        else if t = config.FindInfo.Domain then none
        else some (PolicyError.hostNotPermitted t)) =
      if t = httpHost ∨ t = config.FindInfo.Domain then none
      else some (PolicyError.hostNotPermitted t) := by
    intro t
    by_cases a : t = httpHost <;> by_cases b : t = config.FindInfo.Domain <;>
      simp [a, b]
  unfold HostPolicy
  simp only [key]
  generalize TrimPrefix h1 (go "www.") = t1
  generalize TrimPrefix h2 (go "www.") = t2
  by_cases c1 : t1 = httpHost ∨ t1 = config.FindInfo.Domain <;>
    by_cases c2 : t2 = httpHost ∨ t2 = config.FindInfo.Domain
  · simp [c1, c2]
  · rw [if_pos c1, if_neg c2]
    constructor
    · intro h
      exact absurd h (by simp)
    · rintro (h | h)
      · exact absurd (h ▸ c1) c2
      · exact absurd h.2 c2
  · rw [if_neg c1, if_pos c2]
    constructor
    · intro h
      exact absurd h (by simp)
    · rintro (h | h)
      · exact absurd (h ▸ c2) c1
      · exact absurd h.1 c1
  · rw [if_neg c1, if_neg c2]
    constructor
    · intro h
      left
      exact PolicyError.hostNotPermitted.inj (Option.some.inj h)
    · rintro (h | h)
      · rw [h]
      · exact absurd h.1 c1

/-! ## Theorems: keepalive listener, TLS configuration, startup -/

/-- C5: when `AcceptTCP` returns an error, `Accept` returns that error and
no connection; otherwise it returns the connection `AcceptTCP` produced
(the same descriptor) with a nil error, with keepalive enabled and the
keepalive period set to 10 minutes (600 s, as nanoseconds), whatever the two
options were before. -/
theorem accept_keepalive :
    (∀ err : NetError, Accept (Except.error err) = (none, some err)) ∧
    (∀ tc : TCPConn,
      Accept (Except.ok tc) =
        (some { fd := tc.fd, keepAlive := true, keepAlivePeriod := 10 * Minute },
          none)) ∧
    (∀ tc : TCPConn,
      Accept (Except.ok tc) =
        (some ((tc.SetKeepAlive true).SetKeepAlivePeriod (10 * Minute)), none)) ∧
    10 * Minute = 600 * 1000000000 := by
  refine ⟨fun err => rfl, fun tc => rfl, fun tc => rfl, by decide⟩

/-- C6: the TLS configuration has minimum version TLS 1.2 (0x0303), prefers
the server's cipher-suite order, offers exactly `http/1.1` by ALPN, and lists
exactly, in this order, ECDHE-ECDSA with AES-256-GCM, ChaCha20-Poly1305 and
AES-128-GCM, then ECDHE-RSA with the same three; every listed suite uses an
ECDHE key exchange and an AEAD cipher, and a suite of `crypto/tls` is listed
exactly when it is one of these six. -/
theorem tlsConfig_hardened :
    tlsConfig.MinVersion = VersionTLS12 ∧ VersionTLS12 = 0x0303 ∧
    tlsConfig.PreferServerCipherSuites = true ∧
    tlsConfig.NextProtos = [go "http/1.1"] ∧
    tlsConfig.CipherSuites =
      [ CipherSuite.TLS_ECDHE_ECDSA_WITH_AES_256_GCM_SHA384,
        CipherSuite.TLS_ECDHE_ECDSA_WITH_CHACHA20_POLY1305,
        CipherSuite.TLS_ECDHE_ECDSA_WITH_AES_128_GCM_SHA256,
        CipherSuite.TLS_ECDHE_RSA_WITH_AES_256_GCM_SHA384,
        CipherSuite.TLS_ECDHE_RSA_WITH_CHACHA20_POLY1305,
        CipherSuite.TLS_ECDHE_RSA_WITH_AES_128_GCM_SHA256 ] ∧
    tlsConfig.CipherSuites.map CipherSuite.id =
      [0xc02c, 0xcca9, 0xc02b, 0xc030, 0xcca8, 0xc02f] ∧
    tlsConfig.CipherSuites.map CipherSuite.keyExchange =
      [ KeyExchange.ECDHE_ECDSA, KeyExchange.ECDHE_ECDSA, KeyExchange.ECDHE_ECDSA,
        KeyExchange.ECDHE_RSA, KeyExchange.ECDHE_RSA, KeyExchange.ECDHE_RSA ] ∧
    tlsConfig.CipherSuites.map CipherSuite.cipher =
      [ Cipher.AES_256_GCM, Cipher.CHACHA20_POLY1305, Cipher.AES_128_GCM,
        Cipher.AES_256_GCM, Cipher.CHACHA20_POLY1305, Cipher.AES_128_GCM ] ∧
    tlsConfig.CipherSuites.all (fun s => s.isECDHE && s.isAEAD) = true ∧
    (∀ s : CipherSuite,
      s ∈ tlsConfig.CipherSuites ↔ (s.isECDHE = true ∧ s.isAEAD = true)) := by
  refine ⟨rfl, rfl, rfl, rfl, rfl, by decide, by decide, by decide, by decide, ?_⟩
  intro s
  cases s <;> decide

/-- C7: the flag handling exits with code 0 when `showHelp` is set,
otherwise with code 0 when `showVersion` is set, otherwise with code 1 when
`httpHost` is empty, and otherwise does not exit; so help and version exit
with 0 also when the hostname is missing, and code 1 occurs exactly when
neither flag is set and `httpHost` is empty. -/
theorem flagHandling_exit_code (showHelp showVersion : Bool)
    (httpHost : GoString) :
    (flagHandling showHelp showVersion httpHost).2 =
        (if showHelp then some 0
         else if showVersion then some 0
         else if httpHost = go "" then some 1
         else none) ∧
    ((flagHandling showHelp showVersion httpHost).2 = some 0 ↔
      (showHelp = true ∨ showVersion = true)) ∧
    ((flagHandling showHelp showVersion httpHost).2 = some 1 ↔
      (showHelp = false ∧ showVersion = false ∧ httpHost = go "")) ∧
    ((flagHandling showHelp showVersion httpHost).2 = none ↔
      (showHelp = false ∧ showVersion = false ∧ httpHost ≠ go "")) ∧
    (flagHandling true showVersion (go "")).2 = some 0 ∧
    (flagHandling false true (go "")).2 = some 0 := by
  have e : go "" = ([] : GoString) := rfl
  rw [e]
  unfold flagHandling
  cases showHelp <;> cases showVersion <;> by_cases hh : httpHost = [] <;>
    simp [hh]

/-! ## Theorems: process lifecycle -/

/-- C9, refuted as stated: after the interrupt has been received and before
the process has exited (state `Terminating`), a server goroutine still
processes a request. -/
theorem request_processed_while_terminating :
    Running
      { cpuprofile := go "cpu.prof", profiling := true, handler := none,
        exited := none, served := 0, trace := [] } ∧
    step
      { cpuprofile := go "cpu.prof", profiling := true, handler := none,
        exited := none, served := 0, trace := [] } Event.interrupt =
      some
        { cpuprofile := go "cpu.prof", profiling := true,
          handler := some [Action.StopCPUProfile, Action.Exit 0],
          exited := none, served := 0, trace := [] } ∧
    Terminating
      { cpuprofile := go "cpu.prof", profiling := true,
        handler := some [Action.StopCPUProfile, Action.Exit 0],
        exited := none, served := 0, trace := [] } ∧
    step
      { cpuprofile := go "cpu.prof", profiling := true,
        handler := some [Action.StopCPUProfile, Action.Exit 0],
        exited := none, served := 0, trace := [] } Event.serve =
      some
        { cpuprofile := go "cpu.prof", profiling := true,
          handler := some [Action.StopCPUProfile, Action.Exit 0],
          exited := none, served := 1, trace := [] } := by
  decide

/-- C9, amended: from every `Running` state (in which a CPU profile is
recorded only if `-cpuprofile` is set), an interrupt moves the process to
`Terminating`; the SIGINT goroutine then calls `pprof.StopCPUProfile()` when
`-cpuprofile` is set, and nothing when it is not, and then `os.Exit(0)`, with
no other call in between; after that no CPU profile is being recorded, the
process has exited with code 0, and no further event happens: no request is
processed once the process has exited. -/
theorem sigint_stops_profile_then_exits (s : Proc) (hrun : Running s)
    (hprof : s.profiling = true → s.cpuprofile ≠ go "") :
    sigintHandler s.cpuprofile =
        (if s.cpuprofile ≠ go "" then [Action.StopCPUProfile, Action.Exit 0]
         else [Action.Exit 0]) ∧
    ∃ s1 s2 : Proc,
      step s Event.interrupt = some s1 ∧ Terminating s1 ∧
      s1.handler = some (sigintHandler s.cpuprofile) ∧
      steps s1
          (List.replicate (sigintHandler s.cpuprofile).length Event.handler) =
        some s2 ∧
      s2.trace = s.trace ++ sigintHandler s.cpuprofile ∧
      s2.exited = some 0 ∧ s2.profiling = false ∧ s2.served = s.served ∧
      ∀ e : Event, step s2 e = none := by
  have e : go "" = ([] : GoString) := rfl
  rw [e] at hprof ⊢
  obtain ⟨hex, hh⟩ := hrun
  obtain ⟨cp, pr, ha, ex, sv, tr⟩ := s
  simp only at hex hh hprof
  subst hex hh
  refine ⟨?_, ⟨cp, pr, some (sigintHandler cp), none, sv, tr⟩,
    ⟨cp, false, some [], some 0, sv, tr ++ sigintHandler cp⟩, ?_⟩
  · by_cases hc : cp = [] <;> simp [sigintHandler, hc]
  · by_cases hc : cp = []
    · subst hc
      have hp : pr = false := by
        cases pr
        · rfl
        · exact absurd rfl (hprof rfl)
      subst hp
      simp [sigintHandler, steps, step, perform, Terminating]
    · simp [sigintHandler, hc, steps, step, perform, Terminating,
        List.replicate]

theorem sigint_stops_profile_then_exits_witness :
    sigintHandler (go "cpu.prof") =
        (if go "cpu.prof" ≠ go "" then [Action.StopCPUProfile, Action.Exit 0]
         else [Action.Exit 0]) ∧
    ∃ s1 s2 : Proc,
      step
          { cpuprofile := go "cpu.prof", profiling := true, handler := none,
            exited := none, served := 3, trace := [] } Event.interrupt =
        some s1 ∧ Terminating s1 ∧
      s1.handler = some (sigintHandler (go "cpu.prof")) ∧
      steps s1
          (List.replicate (sigintHandler (go "cpu.prof")).length Event.handler) =
        some s2 ∧
      s2.trace = [] ++ sigintHandler (go "cpu.prof") ∧
      s2.exited = some 0 ∧ s2.profiling = false ∧ s2.served = 3 ∧
      ∀ e : Event, step s2 e = none :=
  sigint_stops_profile_then_exits
    { cpuprofile := go "cpu.prof", profiling := true, handler := none,
      exited := none, served := 3, trace := [] }
    (by decide) (by decide)

/-! ## Theorems: the plaintext listener -/

set_option maxRecDepth 100000 in
theorem shouldEscape_of_nonASCII (c : Byte) (mode : encoding)
    (h : 0x80 ≤ c.val) : shouldEscape c mode = true := by
  revert c mode
  decide

theorem ascii_of_not_shouldEscape (c : Byte) (mode : encoding)
    (h : shouldEscape c mode = false) : c.val < 0x80 := by
  by_contra hc
  have := shouldEscape_of_nonASCII c mode (by omega)
  rw [this] at h
  exact Bool.noConfusion h

set_option maxRecDepth 100000 in
theorem ascii_of_validEncoded_byte (c : Byte) (mode : encoding)
    (h : validEncoded [c] mode = true) : c.val < 0x80 := by
  revert c mode
  decide

theorem escape_eq_self (s : GoString) (mode : encoding)
    (h : ∀ c ∈ s, shouldEscape c mode = false) : escape s mode = s := by
  induction s with
  | nil => rfl
  | cons c t ih =>
    have hc : shouldEscape c mode = false := h c (List.mem_cons_self _ _)
    have ht : escape t mode = t := ih (fun d hd => h d (List.mem_cons_of_mem _ hd))
    have hsp : ¬ (c = byte ' ' ∧ mode = encoding.encodeQueryComponent) := by
      rintro ⟨rfl, rfl⟩
      exact absurd hc (by decide)
    unfold escape at ht ⊢
    simp only [List.flatMap_cons, ht]
    simp [hc, hsp]

theorem hexEscapeNonASCII_eq_self (s : GoString) (h : ∀ c ∈ s, c.val < 0x80) :
    hexEscapeNonASCII s = s := by
  induction s with
  | nil => rfl
  | cons c t ih =>
    have hc : ¬ (0x80 ≤ c.val) := by
      have := h c (List.mem_cons_self _ _)
      omega
    have ht := ih (fun d hd => h d (List.mem_cons_of_mem _ hd))
    unfold hexEscapeNonASCII at ht ⊢
    simp only [List.flatMap_cons, ht]
    simp [hc]

theorem getScheme_https (rest : GoString) :
    getScheme ((go "https:" ++ rest).takeWhile (fun c => c ≠ byte '#')) =
      some (go "https", rest.takeWhile (fun c => c ≠ byte '#')) := by
  rfl

theorem stringHead_https (u : URL) (h : u.Scheme = go "https") :
    ∃ tail : GoString, u.stringHead = go "https:" ++ tail := by
  have e : ∀ x : GoString, go "https" ++ (go ":" ++ x) = go "https:" ++ x :=
    fun _ => rfl
  have hne : go "https" ≠ ([] : GoString) := by decide
  unfold URL.stringHead
  rw [h]
  simp only [hne, ne_eq, not_false_eq_true, if_true, true_or]
  cases hu : u.User <;> simp only [] <;> split_ifs <;>
    simp only [List.append_assoc, e] <;> exact ⟨_, rfl⟩

theorem redirHandler_responds (httpHost : GoString) (r : Request) :
    redirHandler httpHost r =
      some
        { Code := StatusFound
          Header :=
            [("Location",
                hexEscapeNonASCII
                  (URL.String
                    { r.URL with Scheme := go "https", Host := httpHost }))] ++
              (if r.Method = go "GET" ∨ r.Method = go "HEAD" then
                [("Content-Type", go "text/html; charset=utf-8")]
              else []) } := by
  obtain ⟨tail, ht⟩ :=
    stringHead_https { r.URL with Scheme := go "https", Host := httpHost } rfl
  unfold redirHandler Redirect
  simp only [URL.String, ht, List.append_assoc, getScheme_https]
  have hne : go "https" ≠ ([] : GoString) := by decide
  simp [hne]

theorem not_shouldEscape_of_all (s : GoString) (mode : encoding)
    (h : s.all (fun c => !shouldEscape c mode) = true) :
    ∀ c ∈ s, shouldEscape c mode = false := by
  simpa [List.all_eq_true] using h

theorem ascii_of_all (s : GoString)
    (h : s.all (fun c => decide (c.val < 0x80)) = true) :
    ∀ c ∈ s, c.val < 0x80 := by
  simpa [List.all_eq_true] using h

theorem ascii_of_validEncoded (s : GoString) (mode : encoding)
    (h : validEncoded s mode = true) : ∀ c ∈ s, c.val < 0x80 := by
  intro c hc
  apply ascii_of_validEncoded_byte c mode
  unfold validEncoded at h ⊢
  rw [List.all_eq_true] at h
  simpa using h c hc

theorem escapedPath_of_setPath (base u : URL) (p : GoString)
    (hp : HasPrefix p (go "/") = true)
    (hvalid : validEncoded p encoding.encodePath = true)
    (hpath : base.setPath p = some u) :
    u.EscapedPath = p := by
  have hpne : p ≠ [] := by
    rintro rfl
    exact absurd hp (by decide)
  unfold URL.setPath at hpath
  cases hun : unescape p encoding.encodePath with
  | none => rw [hun] at hpath; exact absurd hpath (by simp)
  | some path =>
    rw [hun] at hpath
    simp only [] at hpath
    by_cases hdef : p = escape path encoding.encodePath
    · rw [if_pos hdef] at hpath
      have hu := Option.some.inj hpath
      subst hu
      have hstar : path ≠ go "*" := by
        rintro rfl
        rw [hdef] at hp
        exact absurd hp (by decide)
      unfold URL.EscapedPath
      simp [hstar, hdef]
    · rw [if_neg hdef] at hpath
      have hu := Option.some.inj hpath
      subst hu
      unfold URL.EscapedPath
      simp [hpne, hvalid, hun]

/-- C2, amended: for every primary FQDN `httpHost` that is not empty and
consists of bytes that need no escaping in the host of a URL, and every
request whose URL has no opaque part, user information or fragment, whose
path fields were set (by `setPath`, as the request parser does) from a raw
path `p` that starts with `/` and is validly encoded, and whose raw query
`q` is ASCII, the redirect handler answers with status 302 and the Location
`"https://" ++ httpHost ++ p`, followed by `"?" ++ q` when the query is not
empty or the request target ended in a bare `?`, and by nothing otherwise;
the host the request was addressed to plays no part. -/
theorem redirect_location (httpHost : GoString) (base : URL) (r : Request)
    (p q : GoString)
    (hHostNe : httpHost ≠ go "")
    (hHost : ∀ c ∈ httpHost, shouldEscape c encoding.encodeHost = false)
    (hp : HasPrefix p (go "/") = true)
    (hvalid : validEncoded p encoding.encodePath = true)
    (hpath : base.setPath p = some r.URL)
    (hOpaque : r.URL.Opaque = go "") (hUser : r.URL.User = none)
    (hFrag : r.URL.Fragment = go "")
    (hq : r.URL.RawQuery = q) (hascii : ∀ c ∈ q, c.val < 0x80) :
    ∃ w : Response,
      redirHandler httpHost r = some w ∧ w.Code = 302 ∧
      w.Get "Location" =
        some (go "https://" ++ httpHost ++ p ++
          (if r.URL.ForceQuery = true ∨ q ≠ go "" then go "?" ++ q
           else go "")) := by
  have e : go "" = ([] : GoString) := rfl
  rw [e] at hHostNe hOpaque hFrag ⊢
  have hesc : (URL.EscapedPath
      { r.URL with Scheme := go "https", Host := httpHost }) = p := by
    have := escapedPath_of_setPath base r.URL p hp hvalid hpath
    unfold URL.EscapedPath at this ⊢
    exact this
  have hhead : p.head? = some (byte '/') := by
    unfold HasPrefix at hp
    cases p with
    | nil => exact absurd hp (by decide)
    | cons c t =>
      have h2 : (go "/" : GoString) = [byte '/'] := rfl
      rw [h2] at hp
      have h3 : byte '/' = c := by simpa using hp
      simp [h3.symm]
  have hs : go "https" ≠ ([] : GoString) := by decide
  have hstr : URL.String { r.URL with Scheme := go "https", Host := httpHost } =
      go "https://" ++ httpHost ++ p ++
        (if r.URL.ForceQuery = true ∨ q ≠ [] then go "?" ++ q else []) := by
    have e2 : ∀ x : GoString, go "https" ++ (go ":" ++ (go "//" ++ x)) = go "https://" ++ x :=
      fun _ => rfl
    unfold URL.String URL.stringHead
    simp only [hesc]
    simp [hs, hOpaque, hUser, hFrag, hHostNe, hhead, hq, e2,
      escape_eq_self httpHost _ hHost]
  have hasc : ∀ c ∈ go "https://" ++ httpHost ++ p ++
      (if r.URL.ForceQuery = true ∨ q ≠ [] then go "?" ++ q else []),
      c.val < 0x80 := by
    intro c hc
    simp only [List.mem_append] at hc
    have h1 : ∀ d ∈ go "https://", d.val < 0x80 :=
      ascii_of_all _ (by decide)
    have h2 : ∀ d ∈ go "?", d.val < 0x80 := ascii_of_all _ (by decide)
    rcases hc with ((hc | hc) | hc) | hc
    · exact h1 c hc
    · exact ascii_of_not_shouldEscape c _ (hHost c hc)
    · exact ascii_of_validEncoded p _ hvalid c hc
    · split_ifs at hc
      · simp only [List.mem_append] at hc
        rcases hc with hc | hc
        · exact h2 c hc
        · exact hascii c hc
      · exact absurd hc (List.not_mem_nil c)
  refine ⟨_, redirHandler_responds httpHost r, rfl, ?_⟩
  rw [hstr, hexEscapeNonASCII_eq_self _ hasc]
  simp [Response.Get]

theorem redirect_location_witness :
    ∃ w : Response,
      redirHandler (go "analytics.example.com")
          { Method := go "GET"
            URL :=
              { Scheme := go "", Opaque := go "", User := none, Host := go "",
                Path := go "/a/b", RawPath := go "/a%2Fb", OmitHost := false,
                ForceQuery := false, RawQuery := go "x=1&y=2",
                Fragment := go "", RawFragment := go "" }
            Host := go "other.example.net" } = some w ∧
      w.Code = 302 ∧
      w.Get "Location" =
        some (go "https://" ++ go "analytics.example.com" ++ go "/a%2Fb" ++
          (if false = true ∨ go "x=1&y=2" ≠ go "" then go "?" ++ go "x=1&y=2"
           else go "")) :=
  redirect_location (go "analytics.example.com")
    { Scheme := go "", Opaque := go "", User := none, Host := go "",
      Path := go "", RawPath := go "", OmitHost := false,
      ForceQuery := false, RawQuery := go "x=1&y=2",
      Fragment := go "", RawFragment := go "" }
    { Method := go "GET"
      URL :=
        { Scheme := go "", Opaque := go "", User := none, Host := go "",
          Path := go "/a/b", RawPath := go "/a%2Fb", OmitHost := false,
          ForceQuery := false, RawQuery := go "x=1&y=2",
          Fragment := go "", RawFragment := go "" }
      Host := go "other.example.net" }
    (go "/a%2Fb") (go "x=1&y=2")
    (by decide) (not_shouldEscape_of_all _ _ (by decide)) (by decide)
    (by decide) (by decide) rfl rfl rfl rfl (ascii_of_all _ (by decide))

/-- C2, refuted as stated: for the GET request with raw path `/a<b` (which
`setPath` stores as `Path` and `RawPath`) and query `x=1`, and the primary
FQDN `example.com`, the Location is `https://example.com/a%3Cb?x=1`: the
path is re-encoded, not preserved verbatim. -/
theorem redirect_location_reencodes_path :
    URL.setPath
        { Scheme := go "", Opaque := go "", User := none, Host := go "",
          Path := go "", RawPath := go "", OmitHost := false,
          ForceQuery := false, RawQuery := go "x=1",
          Fragment := go "", RawFragment := go "" } (go "/a<b") =
      some
        { Scheme := go "", Opaque := go "", User := none, Host := go "",
          Path := go "/a<b", RawPath := go "/a<b", OmitHost := false,
          ForceQuery := false, RawQuery := go "x=1",
          Fragment := go "", RawFragment := go "" } ∧
    redirHandler (go "example.com")
        { Method := go "GET"
          URL :=
            { Scheme := go "", Opaque := go "", User := none, Host := go "",
              Path := go "/a<b", RawPath := go "/a<b", OmitHost := false,
              ForceQuery := false, RawQuery := go "x=1",
              Fragment := go "", RawFragment := go "" }
          Host := go "example.com" } =
      some
        { Code := 302
          Header :=
            [("Location", go "https://example.com/a%3Cb?x=1"),
              ("Content-Type", go "text/html; charset=utf-8")] } ∧
    go "https://example.com/a%3Cb?x=1" ≠
      go "https://" ++ go "example.com" ++ go "/a<b" ++ go "?" ++ go "x=1" := by
  decide

theorem redir_eq (httpHost : GoString) :
    redir httpHost =
      some
        { trees :=
            [(go "GET",
              node.mk [] false nodeType.root 0 1 [byte '/']
                [node.mk [] true nodeType.catchAll 1 1 []
                  [node.mk (go "/*path") false nodeType.catchAll 1 1 [] []
                    (some (fun r _ => redirHandler httpHost r))] none] none)]
          RedirectTrailingSlash := true
          RedirectFixedPath := true
          HandleMethodNotAllowed := true
          HandleOPTIONS := true
          globalAllowed := go "GET, OPTIONS" } :=
  rfl


theorem redirTree_getValue (handle : Handle) (t : GoString) :
    (node.mk [] false nodeType.root 0 1 [byte '/']
        [node.mk [] true nodeType.catchAll 1 1 []
          [node.mk (go "/*path") false nodeType.catchAll 1 1 [] [] (some handle)]
          none] none).getValue (byte '/' :: t) [] 0 =
      some { handle := some handle, ps := [(go "path", byte '/' :: t)], tsr := false } := by
  have h1 : List.indexOf? (byte '/') [byte '/'] = some 0 := by decide
  simp [node.getValue, getValueAt, getValueWild, h1]
  decide

theorem redir_serve (httpHost : GoString) (r : Request)
    (hslash : HasPrefix r.URL.Path (go "/") = true) :
    ((redir httpHost).bind fun router => router.ServeHTTP r) =
      if r.Method = go "GET" then
        redirHandler httpHost r
      else if r.Method = go "OPTIONS" then
        some { Code := 200, Header := [("Allow", go "GET, OPTIONS")] }
      else
        some
          { Code := 405
            Header :=
              [("Allow", go "GET, OPTIONS"),
                ("Content-Type", go "text/plain; charset=utf-8"),
                ("X-Content-Type-Options", go "nosniff")] } := by
  rw [redir_eq]
  simp only [Option.bind]
  cases hp : r.URL.Path with
  | nil => rw [hp] at hslash; exact absurd hslash (by decide)
  | cons c t =>
    have hc : c = byte '/' := by
      rw [hp] at hslash
      have h2 : (go "/" : GoString) = [byte '/'] := rfl
      rw [h2] at hslash
      unfold HasPrefix at hslash
      have h3 : byte '/' = c := by simpa using hslash
      exact h3.symm
    subst hc
    have hstar : (byte '/' :: t) ≠ go "*" := by
      intro h
      have h2 : (go "*" : GoString) = [byte '*'] := rfl
      rw [h2] at h
      have h3 := (List.cons.inj h).1
      exact absurd h3 (by decide)
    have hgo : go "GET" ≠ go "OPTIONS" := by decide
    have hsort : Join (insertSorted (insertSorted [] (go "GET")) (go "OPTIONS"))
        (go ", ") = go "GET, OPTIONS" := by decide
    have hne : go "GET, OPTIONS" ≠ ([] : GoString) := by decide
    by_cases hget : r.Method = go "GET"
    · rw [if_pos hget]
      unfold Router.ServeHTTP Router.tree
      simp only [List.find?, hget, decide_True, Option.map, hp, redirTree_getValue]
    · rw [if_neg hget]
      have hget2 : go "GET" ≠ r.Method := fun h => hget h.symm
      unfold Router.ServeHTTP Router.tree
      simp only [List.find?, hget2, decide_False, Option.map]
      unfold Router.serveUnrouted Router.allowed
      by_cases hopt : r.Method = go "OPTIONS"
      · rw [if_pos hopt]
        simp [hopt, hp, hstar, allowedMethods, hgo, redirTree_getValue, hsort, hne, StatusOK]
      · rw [if_neg hopt]
        simp [hopt, hp, hstar, allowedMethods, hgo, hget2, redirTree_getValue, hsort, hne,
          StatusMethodNotAllowed, Error]

theorem hexEscapeNonASCII_append (a b : GoString) :
    hexEscapeNonASCII (a ++ b) = hexEscapeNonASCII a ++ hexEscapeNonASCII b := by
  unfold hexEscapeNonASCII
  simp [List.flatMap_append]

set_option maxRecDepth 100000 in
theorem escape_byte_ascii (a : Byte) (mode : encoding) :
    (escape [a] mode).all (fun c => decide (c.val < 0x80)) = true := by
  revert a mode
  decide

theorem escape_cons (a : Byte) (t : GoString) (mode : encoding) :
    escape (a :: t) mode = escape [a] mode ++ escape t mode := by
  unfold escape
  simp [List.flatMap_cons]

theorem escape_ascii (s : GoString) (mode : encoding) :
    ∀ c ∈ escape s mode, c.val < 0x80 := by
  induction s with
  | nil => intro c hc; exact absurd hc (by simp [escape])
  | cons a t ih =>
    intro c hc
    rw [escape_cons, List.mem_append] at hc
    rcases hc with hc | hc
    · exact ascii_of_all _ (escape_byte_ascii a mode) c hc
    · exact ih c hc

theorem escapedPath_ne_nil (u : URL) (hslash : HasPrefix u.Path (go "/") = true) :
    u.EscapedPath ≠ [] := by
  unfold URL.EscapedPath
  split_ifs with h1 h2
  · exact h1.1
  · decide
  · cases hp : u.Path with
    | nil => rw [hp] at hslash; exact absurd hslash (by decide)
    | cons c t =>
      have hc : c = byte '/' := by
        rw [hp] at hslash
        have e2 : (go "/" : GoString) = [byte '/'] := rfl
        rw [e2] at hslash
        unfold HasPrefix at hslash
        have h3 : byte '/' = c := by simpa using hslash
        exact h3.symm
      subst hc
      rw [escape_cons]
      have e3 : escape [byte '/'] encoding.encodePath = [byte '/'] := by decide
      rw [e3]
      simp

theorem string_https (u : URL) (httpHost : GoString) (hne : httpHost ≠ [])
    (hO : u.Opaque = []) (hU : u.User = none) (hpath : u.EscapedPath ≠ []) :
    URL.String { u with Scheme := go "https", Host := httpHost } =
      go "https://" ++ escape httpHost encoding.encodeHost ++
        ((if u.EscapedPath.head? = some (byte '/') then [] else go "/") ++
          u.EscapedPath ++
          (if u.ForceQuery = true ∨ u.RawQuery ≠ [] then go "?" ++ u.RawQuery
           else []) ++
          (if u.Fragment ≠ [] then go "#" ++ u.EscapedFragment else [])) := by
  have hesc : URL.EscapedPath { u with Scheme := go "https", Host := httpHost } =
      u.EscapedPath := rfl
  have hfrag : URL.EscapedFragment
      { u with Scheme := go "https", Host := httpHost } = u.EscapedFragment := rfl
  have hs : go "https" ≠ ([] : GoString) := by decide
  have hs2 : go "https://" ≠ ([] : GoString) := by decide
  have e2 : ∀ x : GoString,
      go "https" ++ (go ":" ++ (go "//" ++ x)) = go "https://" ++ x := fun _ => rfl
  unfold URL.String URL.stringHead
  simp only [hesc, hfrag]
  by_cases hh : u.EscapedPath.head? = some (byte '/')
  · simp [hs, hs2, hO, hU, hne, hpath, hh, e2]
  · simp [hs, hs2, hO, hU, hne, hpath, hh, e2]

/-- C4, refuted as stated: a POST request for the path `/`, outside the
challenge namespace, is answered by the port-80 handler with 405 Method Not
Allowed, not with a 302 redirect. -/
theorem httpd_post_not_redirected :
    HasPrefix (go "/") (go "/.well-known/acme-challenge/") = false ∧
    httpd (fun _ => none) (go "example.com")
        { Method := go "POST"
          URL :=
            { Scheme := go "", Opaque := go "", User := none, Host := go "",
              Path := go "/", RawPath := go "", OmitHost := false,
              ForceQuery := false, RawQuery := go "",
              Fragment := go "", RawFragment := go "" }
          Host := go "example.com" } =
      some
        { Code := 405
          Header :=
            [("Allow", go "GET, OPTIONS"),
              ("Content-Type", go "text/plain; charset=utf-8"),
              ("X-Content-Type-Options", go "nosniff")] } := by
  decide

/-- C4, amended: every GET request to the plaintext listener whose path
starts with `/` and lies outside the challenge namespace
`/.well-known/acme-challenge/`, and whose URL has no opaque part and no user
information, is answered with a 302 redirect to the secure endpoint: its
Location is `https://`, the primary FQDN (escaped as the host of a URL), and
then the escaped path of the request (after a `/` when it does not start
with one), its query and its fragment.  A request with any other method is
not redirected: the router, which holds the handler for GET only, answers
OPTIONS with status 200 and the single header `Allow: GET, OPTIONS`, and
every other method with 405 Method Not Allowed, the same `Allow` header and
no Location. -/
theorem httpd_redirects_get_only (challenge : Request → Option Response)
    (httpHost : GoString) (r : Request)
    (hslash : HasPrefix r.URL.Path (go "/") = true)
    (hout : HasPrefix r.URL.Path (go "/.well-known/acme-challenge/") = false)
    (hHostNe : httpHost ≠ go "") (hOpaque : r.URL.Opaque = go "")
    (hUser : r.URL.User = none) :
    (r.Method = go "GET" →
      httpd challenge httpHost r =
        some
          { Code := 302
            Header :=
              [("Location",
                  go "https://" ++ escape httpHost encoding.encodeHost ++
                    hexEscapeNonASCII
                      ((if r.URL.EscapedPath.head? = some (byte '/') then go ""
                        else go "/") ++
                        r.URL.EscapedPath ++
                        (if r.URL.ForceQuery = true ∨ r.URL.RawQuery ≠ go "" then
                          go "?" ++ r.URL.RawQuery
                         else go "") ++
                        (if r.URL.Fragment ≠ go "" then
                          go "#" ++ r.URL.EscapedFragment
                         else go ""))),
                ("Content-Type", go "text/html; charset=utf-8")] }) ∧
    (r.Method = go "OPTIONS" →
      httpd challenge httpHost r =
        some { Code := 200, Header := [("Allow", go "GET, OPTIONS")] }) ∧
    (r.Method ≠ go "GET" → r.Method ≠ go "OPTIONS" →
      httpd challenge httpHost r =
        some
          { Code := 405
            Header :=
              [("Allow", go "GET, OPTIONS"),
                ("Content-Type", go "text/plain; charset=utf-8"),
                ("X-Content-Type-Options", go "nosniff")] }) := by
  have e : go "" = ([] : GoString) := rfl
  rw [e] at hHostNe hOpaque ⊢
  have hd : httpd challenge httpHost r =
      ((redir httpHost).bind fun router => router.ServeHTTP r) := by
    unfold httpd HTTPHandler
    simp [hout]
  rw [hd, redir_serve httpHost r hslash]
  refine ⟨?_, ?_, ?_⟩
  · intro hget
    rw [if_pos hget, redirHandler_responds,
      string_https r.URL httpHost hHostNe hOpaque hUser
        (escapedPath_ne_nil r.URL hslash),
      hexEscapeNonASCII_append, hexEscapeNonASCII_append,
      hexEscapeNonASCII_eq_self _ (ascii_of_all (go "https://") (by decide)),
      hexEscapeNonASCII_eq_self _ (escape_ascii httpHost _)]
    simp [hget, StatusFound]
  · intro hopt
    have hget : r.Method ≠ go "GET" := by
      rw [hopt]
      decide
    rw [if_neg hget, if_pos hopt]
  · intro hget hopt
    rw [if_neg hget, if_neg hopt]

theorem httpd_redirects_get_only_witness :
    HasPrefix (go "/ping") (go "/") = true ∧
    HasPrefix (go "/ping") (go "/.well-known/acme-challenge/") = false ∧
    go "example.com" ≠ go "" ∧
    httpd (fun _ => none) (go "example.com")
        { Method := go "GET"
          URL :=
            { Scheme := go "http", Opaque := go "", User := none,
              Host := go "other.example.net",
              Path := go "/ping", RawPath := go "", OmitHost := false,
              ForceQuery := false, RawQuery := go "a=1",
              Fragment := go "", RawFragment := go "" }
          Host := go "other.example.net" } =
      some
        { Code := 302
          Header :=
            [("Location", go "https://example.com/ping?a=1"),
              ("Content-Type", go "text/html; charset=utf-8")] } :=
  ⟨by decide, by decide, by decide,
    (httpd_redirects_get_only (fun _ => none) (go "example.com")
      { Method := go "GET"
        URL :=
          { Scheme := go "http", Opaque := go "", User := none,
            Host := go "other.example.net",
            Path := go "/ping", RawPath := go "", OmitHost := false,
            ForceQuery := false, RawQuery := go "a=1",
            Fragment := go "", RawFragment := go "" }
        Host := go "other.example.net" }
      (by decide) (by decide) (by decide) rfl rfl).1 rfl⟩

end Frequency
